import Mathlib

/-!
Verification of the deterministic text-analysis toolkit of the
research-assistant repository: citation component extraction and scoring
(`src/tools/citation_validator_tool.py`), claim verification by lexical
overlap (`src/tools/fact_checker_tool.py`), and search-result relevance
scoring and ranking (`src/tools/search_tool.py`).

Text is modelled as `List Char`; Python floats are modelled as exact
rationals (`ℚ`); Python regular-expression scans are modelled by explicit
left-to-right scanners over the character list, following the leftmost,
non-overlapping match discipline of `re.findall` / first-match extraction.
-/

namespace ResearchAssistant

/-! ### Basic character and string helpers

`isWordChar` models Python's `\w` on ASCII text (letters, digits,
underscore); `lowerStr` models `str.lower()`; `substr` models the Python
substring test `needle in haystack`. -/

def isWordChar (c : Char) : Bool :=
  c.isAlphanum || c = '_'

def lowerStr (s : List Char) : List Char :=
  s.map Char.toLower

/-- `substr n h = true` iff `n` occurs as a contiguous substring of `h`
(Python's `n in h`). -/
def substr (n : List Char) : List Char → Bool
  | [] => n.isEmpty
  | c :: cs => n.isPrefixOf (c :: cs) || substr n cs

/-- Auxiliary tokenizer: `acc` is the current run of word characters in
reverse order. -/
def wordTokensAux : List Char → List Char → List (List Char)
  | acc, [] => if acc.isEmpty then [] else [acc.reverse]
  | acc, c :: cs =>
    if isWordChar c then wordTokensAux (c :: acc) cs
    else if acc.isEmpty then wordTokensAux [] cs
    else acc.reverse :: wordTokensAux [] cs

/-- The word tokens of a string: the maximal runs of word characters, in
order.  This is `re.findall(r'\b\w+\b', s)`: a maximal run of `\w`
characters has a word boundary on each side, and the greedy `\w+` always
captures the whole run. -/
def wordTokens (s : List Char) : List (List Char) :=
  wordTokensAux [] s

/-! ### Fact checker (`fact_checker_tool.py`)

`_verify_claim_against_sources` tokenizes the lowered claim with
`re.findall(r'\b\w+\b', claim.lower())`, forms the *set* of those tokens,
and counts the tokens `kw` with `kw in sources.lower()` — a Python
substring test against the whole lowered source text. -/

/-- `set(re.findall(r'\b\w+\b', claim.lower()))`, as a duplicate-free list. -/
def claimKeywords (claim : List Char) : List (List Char) :=
  (wordTokens (lowerStr claim)).dedup

/-- `[kw for kw in claim_keywords if kw in source_text]` where
`source_text = sources.lower()`. -/
def matchingKeywords (claim sources : List Char) : List (List Char) :=
  (claimKeywords claim).filter (fun kw => substr kw (lowerStr sources))

/-- `keyword_overlap = len(matching_keywords) / len(claim_keywords) if
claim_keywords else 0`. -/
def keywordOverlap (claim sources : List Char) : ℚ :=
  if claimKeywords claim = [] then 0
  else (matchingKeywords claim sources).length / (claimKeywords claim).length

/-- The part of a `verification` record that the scoring logic fills in. -/
structure Verification where
  verification_status : String
  confidence_score : ℚ
  deriving DecidableEq, Repr

/-- The three-way threshold on the overlap ratio
(`if keyword_overlap >= 0.7 ... elif keyword_overlap >= 0.4 ... else ...`). -/
def overlapBucket (r : ℚ) : Verification :=
  if 7/10 ≤ r then ⟨"strongly_supported", 9/10⟩
  else if 2/5 ≤ r then ⟨"partially_supported", 3/5⟩
  else ⟨"insufficient_evidence", 3/10⟩

/-- `_verify_claim_against_sources(claim, sources, _)`, restricted to the
status and confidence fields it computes. -/
def verifyClaimAgainstSources (claim sources : List Char) : Verification :=
  overlapBucket (keywordOverlap claim sources)

/-- The `overall_reliability` computed by `fact_checker`: the mean of the
confidence scores of the verified claims, left at its initial `0.0` when
the claim list is empty. -/
def overallReliability (claims : List (List Char)) (sources : List Char) : ℚ :=
  if 0 < claims.length then
    ((claims.map (fun c => (verifyClaimAgainstSources c sources).confidence_score)).sum)
      / claims.length
  else 0

/-! ### Citation component extraction (`citation_validator_tool.py`)

`_extract_citation_components` runs a fixed sequence of regular-expression
scans over the citation text.  Each scan is modelled by an explicit
position-indexed matcher together with a left-to-right scanner; `slice s i n`
is the length-`n` substring of `s` starting at position `i`. -/

def slice (s : List Char) (i n : Nat) : List Char :=
  (s.drop i).take n

/-- Python's `\s` on ASCII text: space, tab, newline, carriage return,
vertical tab, form feed. -/
def isPyWhitespace (c : Char) : Bool :=
  c = ' ' || c = '\t' || c = '\n' || c = '\r' || c.toNat = 11 || c.toNat = 12

/-- `str.strip()`: remove leading and trailing whitespace. -/
def stripStr (s : List Char) : List Char :=
  ((s.dropWhile isPyWhitespace).reverse.dropWhile isPyWhitespace).reverse

/-- Python truthiness of `dict.get(key)` for string values: a key that is
absent or maps to the empty string is falsy. -/
def truthy (o : Option (List Char)) : Bool :=
  match o with
  | some v => !v.isEmpty
  | none => false

/-- Generic leftmost-match scanner: try the position-indexed matcher `f` at
positions `i, i+1, ...` and return the first match.  `fuel` bounds the
number of positions tried; callers pass `s.length + 1`, which covers every
start position of the subject string. -/
def scanFirst (f : Nat → Option (List Char)) : Nat → Nat → Option (List Char)
  | 0, _ => none
  | fuel + 1, i =>
    match f i with
    | some m => some m
    | none => scanFirst f fuel (i + 1)

/-- Matcher for `https?://[^\s<>"\x7b\x7d|\\^`\[\]]+` at position `i`: the
literal scheme (with the greedy optional `s`), then a maximal nonempty run
of characters outside the excluded class.  The excluded characters are
listed by code point: `<ASCII 60> <62> <34> <123> <125> <124> <92> <94> <96> <91> <93>`. -/
def urlCharOk (c : Char) : Bool :=
  !isPyWhitespace c &&
    !([60, 62, 34, 123, 125, 124, 92, 94, 96, 91, 93].contains c.toNat)

def urlMatchAt (s : List Char) (i : Nat) : Option (List Char) :=
  if slice s i 4 = ['h', 't', 't', 'p'] then
    let schemeEnd : Option Nat :=
      if s.get? (i + 4) = some 's' && slice s (i + 5) 3 = [':', '/', '/'] then
        some (i + 8)
      else if slice s (i + 4) 3 = [':', '/', '/'] then some (i + 7)
      else none
    match schemeEnd with
    | none => none
    | some j =>
      let run := (s.drop j).takeWhile urlCharOk
      if run.isEmpty then none else some (slice s i (j - i) ++ run)
  else none

/-- `url`: the first match of the URL pattern (`re.findall(...)[0]`). -/
def extractUrl (s : List Char) : Option (List Char) :=
  scanFirst (urlMatchAt s) (s.length + 1) 0

/-- Matcher for `\b(19|20)\d{2}\b` at position `i`.  The match starts and
ends with word characters, so the boundaries hold exactly when the
neighbouring positions are absent or non-word. -/
def yearMatchAt (s : List Char) (i : Nat) : Bool :=
  (decide (i = 0) || (s.get? (i - 1)).elim true (fun c => !isWordChar c)) &&
    (match s.get? i, s.get? (i + 1), s.get? (i + 2), s.get? (i + 3) with
      | some a, some b, some c, some d =>
        ((a = '1' && b = '9') || (a = '2' && b = '0')) && c.isDigit && d.isDigit
      | _, _, _, _ => false) &&
    (s.get? (i + 4)).elim true (fun c => !isWordChar c)

/-- All full (4-character) matches of the year pattern, leftmost and
non-overlapping, as `re.findall` produces them.  On a match the scan
resumes after the matched text; otherwise it advances one position. -/
def yearScan (s : List Char) : Nat → Nat → List (List Char)
  | 0, _ => []
  | fuel + 1, i =>
    if yearMatchAt s i then slice s i 4 :: yearScan s fuel (i + 4)
    else yearScan s fuel (i + 1)

def findallYearMatches (s : List Char) : List (List Char) :=
  yearScan s (s.length + 1) 0

/-- `year`: `re.findall(r'\b(19|20)\d{2}\b', citation)[-1]` when nonempty.
Because the pattern's alternation `(19|20)` is a capturing group,
`re.findall` returns the *group* captures — the first two characters of
each match — not the full 4-digit matches. -/
def extractYear (s : List Char) : Option (List Char) :=
  (findallYearMatches s).getLast?.map (fun m => m.take 2)

/-- Matcher for `10\.\d{4,}/[^\s]+` at position `i`: the literal `10.`,
a maximal digit run of length at least 4, a literal `/`, and a maximal
nonempty run of non-whitespace.  (A shorter digit run would leave the next
character a digit, never `/`, so the greedy run is the only candidate.) -/
def doiMatchAt (s : List Char) (i : Nat) : Option (List Char) :=
  if slice s i 3 = ['1', '0', '.'] then
    let d := (s.drop (i + 3)).takeWhile Char.isDigit
    if 4 ≤ d.length && s.get? (i + 3 + d.length) = some '/' then
      let t := (s.drop (i + 4 + d.length)).takeWhile (fun c => !isPyWhitespace c)
      if t.isEmpty then none
      else some (['1', '0', '.'] ++ d ++ ['/'] ++ t)
    else none
  else none

def extractDoi (s : List Char) : Option (List Char) :=
  scanFirst (doiMatchAt s) (s.length + 1) 0

/-- Matcher for a delimited group `q([^q]+)q` at position `i` (used with
`q` one of `"`, `*`, `_`): an opening delimiter, a maximal nonempty run of
non-delimiter characters, and a closing delimiter.  Returns the group
capture. -/
def delimMatchAt (q : Char) (s : List Char) (i : Nat) : Option (List Char) :=
  if s.get? i = some q then
    let body := (s.drop (i + 1)).takeWhile (fun c => c ≠ q)
    if body.isEmpty then none
    else if s.get? (i + 1 + body.length) = some q then some body
    else none
  else none

/-- `title`: first match of `"([^"]+)"` (group capture).  The source lists
a second, fallback pattern for smart quotes, but in the repository's bytes
that pattern's character classes contain only straight `"` characters, so
the fallback is the same pattern and can never add a match. -/
def extractTitle (s : List Char) : Option (List Char) :=
  scanFirst (delimMatchAt '"' s) (s.length + 1) 0

/-- `journal`: first match of `\*([^*]+)\*`; if none, first match of
`_([^_]+)_`. -/
def extractJournal (s : List Char) : Option (List Char) :=
  match scanFirst (delimMatchAt '*' s) (s.length + 1) 0 with
  | some j => some j
  | none => scanFirst (delimMatchAt '_' s) (s.length + 1) 0

/-- The literal tail `\(year\)` of the author pattern. -/
def parenLit (year : List Char) : List Char :=
  '(' :: (year ++ [')'])

/-- `\s*\(year\)` matches at the head of `l`: after some run of whitespace
the literal `(year)` follows.  Since `(` is not whitespace, the only
possible whitespace consumption is the maximal leading run. -/
def wsThenParen (year l : List Char) : Bool :=
  (parenLit year).isPrefixOf (l.dropWhile isPyWhitespace)

/-- The lazy group `([^.]+?)` of the author pattern, growing from a fixed
start position: `acc` is the group so far; after each added character the
engine first tries to finish the match with `\s*\(year\)`.  A `.` stops
the growth (the group admits no dot). -/
def authorGroup (year : List Char) : List Char → List Char → Option (List Char)
  | _, [] => none
  | acc, c :: cs =>
    if c = '.' then none
    else if wsThenParen year cs then some (acc ++ [c])
    else authorGroup year (acc ++ [c]) cs

/-- Leftmost match of `([^.]+?)\s*\(year\)`: try each start position in
order. -/
def authorScan (year : List Char) : List Char → Option (List Char)
  | [] => none
  | c :: cs =>
    match authorGroup year [] (c :: cs) with
    | some g => some g
    | none => authorScan year cs

/-- `author`: group capture of the first match of
`f'([^.]+?)\s*\({year}\)'`, stripped — only attempted when a year was
extracted (the stored year, `"19"`/`"20"`, is interpolated into the
pattern). -/
def extractAuthor (s year : List Char) : Option (List Char) :=
  (authorScan year s).map stripStr

/-- The components dictionary built by `_extract_citation_components`;
each field is the corresponding optional entry.  The extraction assigns no
key other than these six. -/
structure Components where
  url : Option (List Char) := none
  year : Option (List Char) := none
  doi : Option (List Char) := none
  title : Option (List Char) := none
  author : Option (List Char) := none
  journal : Option (List Char) := none
  deriving DecidableEq, Repr

/-- `components.get(key)` on the extraction dictionary: any key other than
the six assigned ones yields `None`. -/
def getComponent (c : Components) : String → Option (List Char)
  | "url" => c.url
  | "year" => c.year
  | "doi" => c.doi
  | "title" => c.title
  | "author" => c.author
  | "journal" => c.journal
  | _ => none

/-- `_extract_citation_components(citation)`. -/
def extractCitationComponents (citation : List Char) : Components :=
  let year := extractYear citation
  { url := extractUrl citation
    year := year
    doi := extractDoi citation
    title := extractTitle citation
    author := match year with
      | some y => extractAuthor citation y
      | none => none
    journal := extractJournal citation }

/-! ### Citation validation and scoring -/

/-- `str.upper()` on ASCII text, written as a characterwise map over the
string's character list. -/
def pyUpper (s : String) : String :=
  ⟨s.data.map Char.toUpper⟩

/-- `_get_required_components(style)`: the common required list, with
`"source"` appended for the styles in the table.  The table is keyed by
`"APA"`, `"MLA"`, `"Chicago"` but looked up with `style.upper()`, so the
`"Chicago"` entry is unreachable (`"CHICAGO" != "Chicago"`) and any
Chicago-style input falls back to the common list. -/
def getRequiredComponents (style : String) : List String :=
  let common := ["author", "title", "year"]
  match pyUpper style with
  | "APA" => common ++ ["source"]
  | "MLA" => common ++ ["source"]
  | _ => common

/-- The score and the strength/issue messages accumulated by
`_validate_components`. -/
structure ComponentCheck where
  score : ℚ
  strengths : List String
  issues : List String
  deriving DecidableEq, Repr

/-- One iteration of the required-component loop of
`_validate_components`: a truthy component adds its `1/total` share and a
`Has ...` strength, a missing one appends a `Missing ...` issue. -/
def componentStep (c : Components) (total : ℕ) (acc : ComponentCheck)
    (comp : String) : ComponentCheck :=
  if truthy (getComponent c comp) then
    { acc with
      score := acc.score + 1 / (total : ℚ)
      strengths := acc.strengths ++ ["Has " ++ comp] }
  else
    { acc with issues := acc.issues ++ ["Missing " ++ comp] }

/-- `_validate_components(components, required, result)`: one loop over the
required names awarding `1/len(required)` per (truthy) present component,
then the DOI and URL bonuses. -/
def validateComponents (c : Components) (required : List String) : ComponentCheck :=
  let base := required.foldl (componentStep c required.length) ⟨0, [], []⟩
  let b1 :=
    if truthy c.doi then
      { base with score := base.score + 1/10, strengths := base.strengths ++ ["Includes DOI"] }
    else base
  if truthy c.url then
    { b1 with score := b1.score + 1/20, strengths := b1.strengths ++ ["Includes URL"] }
  else b1

/-- The fields of a `validation_result` record that the scoring logic
determines. -/
structure ValidationResult where
  quality_score : ℚ
  is_valid : Bool
  strengths : List String
  issues : List String
  metadata : Components
  deriving DecidableEq, Repr

/-- The scoring part of `_validate_single_citation` applied to already
extracted components, with the outcome of the network URL-accessibility
check abstracted as the boolean `urlAccessible` and its error text as
`urlError` (the check is the only I/O-performing step).  Mirrors the
component validation, the conditional URL bonus, the cap `min(score, 1.0)`
and the validity threshold `quality_score >= 0.7`. -/
def validateExtracted (components : Components) (style : String)
    (urlAccessible : Bool) (urlError : String) : ValidationResult :=
  let chk := validateComponents components (getRequiredComponents style)
  let afterUrl : ComponentCheck :=
    if truthy components.url then
      if urlAccessible then
        { chk with score := chk.score + 1/10,
                   strengths := chk.strengths ++ ["URL is accessible"] }
      else
        { chk with issues := chk.issues ++ ["URL not accessible: " ++ urlError] }
    else chk
  { quality_score := min afterUrl.score 1
    is_valid := decide ((7 : ℚ)/10 ≤ min afterUrl.score 1)
    strengths := afterUrl.strengths
    issues := afterUrl.issues
    metadata := components }

/-- `_validate_single_citation(citation, style, _)`: extract the
components, then score them. -/
def validateSingleCitation (citation : List Char) (style : String)
    (urlAccessible : Bool) (urlError : String) : ValidationResult :=
  validateExtracted (extractCitationComponents citation) style urlAccessible urlError

/-- `_calculate_overall_quality(validated_citations)`: `0.0` on an empty
list, else the mean of the quality scores. -/
def calculateOverallQuality (rs : List ValidationResult) : ℚ :=
  if rs.isEmpty then 0
  else (rs.map (fun r => r.quality_score)).sum / (rs.length : ℚ)

/-- The overlap ratio as the specification's words describe it
(`|claimTokens ∩ tokensIn(sourceText.lower())| / |claimTokens|`, `0` if the
claim has no tokens): the *set of word tokens* of the lowered source, not a
substring test.  Stated for comparison with `keywordOverlap`, which is the
code's computation. -/
def specKeywordOverlap (claim sources : List Char) : ℚ :=
  if claimKeywords claim = [] then 0
  else ((claimKeywords claim).filter
          (fun kw => kw ∈ wordTokens (lowerStr sources))).length
        / (claimKeywords claim).length

/-! ### Search result scoring and ranking (`search_tool.py`) -/

/-- `str.split()` with no argument: the maximal runs of non-whitespace
characters, in order (leading/trailing/repeated whitespace produces no
empty fragments). -/
def pySplitAux : List Char → List Char → List (List Char)
  | acc, [] => if acc.isEmpty then [] else [acc.reverse]
  | acc, c :: cs =>
    if isPyWhitespace c then
      if acc.isEmpty then pySplitAux [] cs
      else acc.reverse :: pySplitAux [] cs
    else pySplitAux (c :: acc) cs

def pySplit (s : List Char) : List (List Char) :=
  pySplitAux [] s

/-- `set(query.lower().split())`, as a duplicate-free list. -/
def queryTerms (query : List Char) : List (List Char) :=
  (pySplit (lowerStr query)).dedup

/-- A raw search hit as the search backend returns it (`title`, `body`,
`href`). -/
structure RawResult where
  title : List Char
  body : List Char
  href : List Char
  deriving DecidableEq, Repr

/-- `_calculate_relevance(query, result)`.  The count for the title
(respectively the body) is the number of distinct query terms occurring as
substrings of the lowered title (body).  The source divides by
`len(query_terms)` unconditionally; when the query has no terms this is a
`ZeroDivisionError`, modelled as `none`. -/
def calculateRelevance (query : List Char) (result : RawResult) : Option ℚ :=
  let terms := queryTerms query
  let title := lowerStr result.title
  let body := lowerStr result.body
  let titleMatches := (terms.filter (fun t => substr t title)).length
  let bodyMatches := (terms.filter (fun t => substr t body)).length
  if terms.length = 0 then none
  else
    some (min (((titleMatches : ℚ) * (7/10) + (bodyMatches : ℚ) * (3/10))
                / (terms.length : ℚ)) 1)

/-- A processed search record, restricted to the two score fields the
ranking step reads. -/
structure SearchResultRecord where
  relevance_score : ℚ
  content_quality : ℚ
  deriving DecidableEq, Repr

/-- The sort key of `results.sort(key=lambda x: (x["relevance_score"] +
x["content_quality"]) / 2, reverse=True)`. -/
def combinedScore (r : SearchResultRecord) : ℚ :=
  (r.relevance_score + r.content_quality) / 2

/-- Stable insertion for a descending sort: a later-processed element
passes an earlier one only when its key is strictly greater, so equal-key
elements keep their input order. -/
def insertDesc {α : Type} (key : α → ℚ) (x : α) : List α → List α
  | [] => [x]
  | y :: ys => if key x < key y then y :: insertDesc key x ys else x :: y :: ys

/-- Stable descending sort by `key`: the denotation of Python's
`list.sort(key=..., reverse=True)`, which is a stable sort read in
descending key order. -/
def stableSortDesc {α : Type} (key : α → ℚ) : List α → List α
  | [] => []
  | x :: xs => insertDesc key x (stableSortDesc key xs)

/-- The ranking step of `advanced_web_search` (line 51 of the source). -/
def rankResults (rs : List SearchResultRecord) : List SearchResultRecord :=
  stableSortDesc combinedScore rs

/-! ### Concrete inputs used in the theorems below -/

/-- The spec's own year tie-break example. -/
def cit1 : List Char := "Vol. 12 (2020)".toList

/-- A synthetic citation with author, 4-digit year, quoted title, italic
journal and URL. -/
def cit2 : List Char :=
  "Smith, J. (2020). \"Deep Learning\". *Nature*. https://example.com/paper".toList

/-- A citation whose extraction yields a journal (and a title) but no other
component. -/
def citJournalOnly : List Char :=
  "Smith, J. \"Deep Learning methods\". *Nature*".toList

/-- A citation whose extraction yields exactly author, title and year (the
literal `(20)` matches the author pattern built from the stored year). -/
def citAuthorTitleYear : List Char :=
  "Smith (20) \"A Great Paper\" circa 2020".toList

/-- A citation whose extraction yields exactly author and year. -/
def citAuthorYear : List Char := "Smith (20) circa 2020".toList

/-- Claim/source pair separating the substring test from token-set
intersection: `cat` is a substring of `concatenate` but not a word token
of it. -/
def cexClaim : List Char := "cat".toList

def cexSources : List Char := "concatenate".toList

/-- Two-token claim and one-token source for concrete bucket values. -/
def claimAB : List Char := "alpha beta".toList

def sourcesA : List Char := "alpha".toList

/-- A raw search hit used to exercise the relevance function. -/
def hit0 : RawResult :=
  ⟨"Alpha review".toList, "All about alpha".toList, "https://example.org".toList⟩

def queryAlpha : List Char := "alpha".toList

/-! ### Helper lemmas -/

theorem issues_componentStep {c : Components} {t : ℕ} {acc : ComponentCheck}
    {comp : String} {x : String} (h : x ∈ acc.issues) :
    x ∈ (componentStep c t acc comp).issues := by
  unfold componentStep
  split
  · exact h
  · exact List.mem_append_left _ h

theorem issues_foldl_componentStep {c : Components} {t : ℕ} {x : String} :
    ∀ (req : List String) (acc : ComponentCheck), x ∈ acc.issues →
      x ∈ (req.foldl (componentStep c t) acc).issues
  | [], _, h => h
  | _ :: rs, _acc, h =>
    issues_foldl_componentStep rs _ (issues_componentStep h)

theorem missing_mem_issues_foldl {c : Components} {t : ℕ} :
    ∀ (req : List String) (acc : ComponentCheck) (comp : String),
      comp ∈ req → truthy (getComponent c comp) = false →
      ("Missing " ++ comp) ∈ (req.foldl (componentStep c t) acc).issues := by
  intro req
  induction req with
  | nil => intro _ _ h; cases h
  | cons r rs ih =>
    intro acc comp hmem hfalse
    rcases List.mem_cons.mp hmem with heq | htail
    · subst heq
      refine issues_foldl_componentStep rs _ ?_
      unfold componentStep
      rw [hfalse]
      simp
    · exact ih _ comp htail hfalse

theorem validateComponents_issues (c : Components) (required : List String) :
    (validateComponents c required).issues =
      (required.foldl (componentStep c required.length) ⟨0, [], []⟩).issues := by
  unfold validateComponents
  split <;> split <;> rfl

theorem dedup_filter_comm {α : Type} [DecidableEq α] (p : α → Bool) :
    ∀ l : List α, l.dedup.filter p = (l.filter p).dedup := by
  intro l
  induction l with
  | nil => rfl
  | cons a l ih =>
    by_cases hmem : a ∈ l
    · rw [List.dedup_cons_of_mem hmem]
      by_cases hp : p a
      · rw [List.filter_cons_of_pos hp,
          List.dedup_cons_of_mem (List.mem_filter.mpr ⟨hmem, hp⟩), ih]
      · rw [List.filter_cons_of_neg hp, ih]
    · rw [List.dedup_cons_of_not_mem hmem]
      by_cases hp : p a
      · rw [List.filter_cons_of_pos hp, List.filter_cons_of_pos hp,
          List.dedup_cons_of_not_mem (fun hc => hmem (List.mem_of_mem_filter hc)), ih]
      · rw [List.filter_cons_of_neg hp, List.filter_cons_of_neg hp, ih]

theorem insertDesc_perm {α : Type} (key : α → ℚ) (x : α) :
    ∀ l : List α, (insertDesc key x l).Perm (x :: l) := by
  intro l
  induction l with
  | nil => exact List.Perm.refl _
  | cons y ys ih =>
    unfold insertDesc
    split
    · exact (ih.cons y).trans (List.Perm.swap x y ys)
    · exact List.Perm.refl _

theorem stableSortDesc_perm {α : Type} (key : α → ℚ) :
    ∀ l : List α, (stableSortDesc key l).Perm l := by
  intro l
  induction l with
  | nil => exact List.Perm.refl _
  | cons x xs ih =>
    exact (insertDesc_perm key x _).trans (ih.cons x)

theorem pairwise_insertDesc {α : Type} (key : α → ℚ) (x : α) :
    ∀ l : List α, l.Pairwise (fun a b => key b ≤ key a) →
      (insertDesc key x l).Pairwise (fun a b => key b ≤ key a) := by
  intro l
  induction l with
  | nil => intro _; simp [insertDesc]
  | cons y ys ih =>
    intro h
    rcases List.pairwise_cons.mp h with ⟨hy, hys⟩
    unfold insertDesc
    split
    · rename_i hlt
      refine List.pairwise_cons.mpr ⟨?_, ih hys⟩
      intro z hz
      rcases List.mem_cons.mp ((insertDesc_perm key x ys).mem_iff.mp hz) with hzx | hzys
      · subst hzx; exact le_of_lt hlt
      · exact hy z hzys
    · rename_i hge
      refine List.pairwise_cons.mpr ⟨?_, h⟩
      intro z hz
      rcases List.mem_cons.mp hz with hzy | hzys
      · subst hzy; exact le_of_not_lt hge
      · exact le_trans (hy z hzys) (le_of_not_lt hge)

theorem pairwise_stableSortDesc {α : Type} (key : α → ℚ) :
    ∀ l : List α, (stableSortDesc key l).Pairwise (fun a b => key b ≤ key a) := by
  intro l
  induction l with
  | nil => exact List.Pairwise.nil
  | cons x xs ih => exact pairwise_insertDesc key x _ ih

theorem filter_insertDesc {α : Type} (key : α → ℚ) (k : ℚ) (x : α) :
    ∀ l : List α,
      (insertDesc key x l).filter (fun z => decide (key z = k)) =
        if key x = k then x :: l.filter (fun z => decide (key z = k))
        else l.filter (fun z => decide (key z = k)) := by
  intro l
  induction l with
  | nil =>
    by_cases hx : key x = k <;> simp [insertDesc, hx]
  | cons y ys ih =>
    unfold insertDesc
    split
    · rename_i hlt
      by_cases hy : key y = k
      · have hx : ¬ key x = k := by
          intro hx; rw [hx, hy] at hlt; exact lt_irrefl k hlt
        rw [List.filter_cons_of_pos (by simpa using hy), ih]
        simp [hx, hy]
      · rw [List.filter_cons_of_neg (by simpa using hy), ih]
        by_cases hx : key x = k <;>
          simp [hx, hy, List.filter_cons_of_neg]
    · by_cases hx : key x = k
      · rw [List.filter_cons_of_pos (by simpa using hx)]
        simp [hx]
      · rw [List.filter_cons_of_neg (by simpa using hx)]
        simp [hx]

theorem filter_stableSortDesc {α : Type} (key : α → ℚ) (k : ℚ) :
    ∀ l : List α,
      (stableSortDesc key l).filter (fun z => decide (key z = k)) =
        l.filter (fun z => decide (key z = k)) := by
  intro l
  induction l with
  | nil => rfl
  | cons x xs ih =>
    show (insertDesc key x (stableSortDesc key xs)).filter _ = _
    rw [filter_insertDesc key k x]
    by_cases hx : key x = k
    · rw [if_pos hx, ih, List.filter_cons_of_pos (by simpa using hx)]
    · rw [if_neg hx, ih, List.filter_cons_of_neg (by simpa using hx)]

/-! ### Claim theorems -/

/-- C1: evaluation of the extraction at the spec's own example
`"Vol. 12 (2020)"`.  The year pattern `\b(19|20)\d{2}\b` finds the full
match `2020` (last match policy), but `re.findall` returns the capture of
the group `(19|20)`, so the stored year field is the 2-character string
`"20"`, not the 4-character substring `"2020"` that the claim (and the
code's own comment, author pattern and formatters) expect. -/
theorem year_extraction_stores_group_capture :
    (extractCitationComponents cit1).year = some ['2', '0'] ∧
    (extractCitationComponents cit1).year ≠ some ['2', '0', '2', '0'] := by
  decide

/-- C2: evaluation of the extraction at a synthetic citation containing a
known author, 4-digit year, quoted title, italic journal and URL.  Title,
journal and URL round-trip exactly, but the year field is the group
capture `"20"` rather than `"2020"`, and the author field is absent: the
author pattern interpolates the stored year, so it searches for the
literal `(20)`, which does not occur in the citation. -/
theorem round_trip_extraction_at_synthetic :
    extractCitationComponents cit2 =
      { url := some ("https://example.com/paper".toList)
        year := some ['2', '0']
        doi := none
        title := some ("Deep Learning".toList)
        author := none
        journal := some ("Nature".toList) } := by
  decide

/-- C5 counterexample: the code's overlap ratio is computed with a Python
substring test (`kw in source_text`), not with membership in the source's
word-token set.  At claim `"cat"` against sources `"concatenate"` the code
yields ratio `1` while the claimed token-set intersection yields `0`. -/
theorem overlap_not_token_intersection :
    keywordOverlap cexClaim cexSources = 1 ∧
    specKeywordOverlap cexClaim cexSources = 0 ∧
    keywordOverlap cexClaim cexSources ≠ specKeywordOverlap cexClaim cexSources := by
  have h1 : claimKeywords cexClaim = [['c', 'a', 't']] := by decide
  have h2 : matchingKeywords cexClaim cexSources = [['c', 'a', 't']] := by decide
  have h3 : (claimKeywords cexClaim).filter
      (fun kw => kw ∈ wordTokens (lowerStr cexSources)) = [] := by decide
  have hk : keywordOverlap cexClaim cexSources = 1 := by
    unfold keywordOverlap
    rw [h1, h2]
    norm_num
  have hs : specKeywordOverlap cexClaim cexSources = 0 := by
    unfold specKeywordOverlap
    rw [h1] at h3 ⊢
    rw [h3]
    norm_num
  refine ⟨hk, hs, ?_⟩
  rw [hk, hs]
  norm_num

/-- C5 (amended): for every claim and source text, the overlap ratio is
the number of distinct claim word-tokens that occur as *substrings* of the
lowercased source text, divided by the number of distinct claim tokens,
and `0` when the claim has no tokens. -/
theorem keyword_overlap_substring_formula :
    ∀ claim sources : List Char,
      keywordOverlap claim sources =
        if wordTokens (lowerStr claim) = [] then 0
        else
          (((wordTokens (lowerStr claim)).toFinset.filter
              (fun kw => substr kw (lowerStr sources) = true)).card : ℚ) /
            ((wordTokens (lowerStr claim)).toFinset.card : ℚ) := by
  intro claim sources
  simp only [keywordOverlap, claimKeywords, matchingKeywords]
  by_cases h : wordTokens (lowerStr claim) = []
  · simp [h]
  · have hd : ¬ (wordTokens (lowerStr claim)).dedup = [] := by
      simpa [List.dedup_eq_nil] using h
    rw [if_neg hd, if_neg h, List.card_toFinset, ← List.toFinset_filter,
      List.card_toFinset, dedup_filter_comm]

/-- Evaluation of the required-component fold on the APA list under
explicit truthiness hypotheses: the score is the number of truthy required
components times `1/4`. -/
theorem validateExtracted_apa_quality (c : Components) (acc : Bool) (err : String)
    (ha : truthy c.author = true) (hy : truthy c.year = true)
    (hu : c.url = none) (hd : c.doi = none) :
    (truthy c.title = true →
      (validateExtracted c "APA" acc err).quality_score = 3/4 ∧
      (validateExtracted c "APA" acc err).is_valid = true) ∧
    (truthy c.title = false →
      (validateExtracted c "APA" acc err).quality_score = 1/2 ∧
      (validateExtracted c "APA" acc err).is_valid = false) := by
  have hreq : getRequiredComponents "APA" = ["author", "title", "year", "source"] := rfl
  have e1 : getComponent c "author" = c.author := rfl
  have e2 : getComponent c "title" = c.title := rfl
  have e3 : getComponent c "year" = c.year := rfl
  have e4 : getComponent c "source" = none := rfl
  have hnone : truthy none = false := rfl
  constructor
  · intro ht
    unfold validateExtracted validateComponents
    rw [hreq]
    simp only [List.foldl_cons, List.foldl_nil, componentStep,
      List.length_cons, List.length_nil, e1, e2, e3, e4, ha, ht, hy, hu, hd, hnone]
    norm_num [min_def]
  · intro ht
    unfold validateExtracted validateComponents
    rw [hreq]
    simp only [List.foldl_cons, List.foldl_nil, componentStep,
      List.length_cons, List.length_nil, e1, e2, e3, e4, ha, ht, hy, hu, hd, hnone]
    norm_num [min_def]

/-- C3 (amended): for APA and MLA the required component set is
`author, title, year, source`, but for Chicago it is only
`author, title, year` (the style table is keyed `"Chicago"` yet looked up
with `style.upper()`, so the entry is unreachable); and the `source`
requirement is tested against a literal `source` key that the extraction
never produces, so every APA/MLA validation reports a `Missing source`
issue — having a journal or a URL never satisfies it. -/
theorem required_components_and_missing_source :
    getRequiredComponents "APA" = ["author", "title", "year", "source"] ∧
    getRequiredComponents "MLA" = ["author", "title", "year", "source"] ∧
    getRequiredComponents "Chicago" = ["author", "title", "year"] ∧
    (∀ c : Components,
      "Missing source" ∈ (validateComponents c (getRequiredComponents "APA")).issues) ∧
    (∀ c : Components,
      "Missing source" ∈ (validateComponents c (getRequiredComponents "MLA")).issues) := by
  have happ : ("Missing " ++ "source" : String) = "Missing source" := rfl
  refine ⟨rfl, rfl, rfl, ?_, ?_⟩ <;>
    · intro c
      rw [validateComponents_issues, ← happ]
      exact missing_mem_issues_foldl _ _ "source" (by decide) rfl

/-- C3 counterexample: the claim fails concretely.  For Chicago the
required set is not the four-element set the claim states; and a citation
whose extracted components do contain a journal still receives the
`Missing source` issue (and no `source` share: its strengths are only
`Has title`). -/
theorem chicago_and_journal_source_counterexample :
    getRequiredComponents "Chicago" ≠ ["author", "title", "year", "source"] ∧
    truthy (extractCitationComponents citJournalOnly).journal = true ∧
    "Missing source" ∈ (validateSingleCitation citJournalOnly "APA" false "").issues ∧
    (validateSingleCitation citJournalOnly "APA" false "").strengths = ["Has title"] := by
  decide

/-- C4 (amended): under APA, extracted components of exactly
author+title+year (no URL, no DOI) give quality score `3/4 = 0.75` and
validity; components of exactly author+year (missing title) give quality
score `2/4 = 0.5` — not the claimed `≈ 0.67`, because the APA required
set has four elements, not three — and invalidity. -/
theorem apa_quality_boundary :
    (∀ (citation : List Char) (acc : Bool) (err : String),
      truthy (extractCitationComponents citation).author = true →
      truthy (extractCitationComponents citation).title = true →
      truthy (extractCitationComponents citation).year = true →
      (extractCitationComponents citation).url = none →
      (extractCitationComponents citation).doi = none →
      (validateSingleCitation citation "APA" acc err).quality_score = 3/4 ∧
      (validateSingleCitation citation "APA" acc err).is_valid = true) ∧
    (∀ (citation : List Char) (acc : Bool) (err : String),
      truthy (extractCitationComponents citation).author = true →
      truthy (extractCitationComponents citation).title = false →
      truthy (extractCitationComponents citation).year = true →
      (extractCitationComponents citation).url = none →
      (extractCitationComponents citation).doi = none →
      (validateSingleCitation citation "APA" acc err).quality_score = 1/2 ∧
      (validateSingleCitation citation "APA" acc err).is_valid = false) := by
  constructor
  · intro citation acc err ha ht hy hu hd
    exact (validateExtracted_apa_quality _ acc err ha hy hu hd).1 ht
  · intro citation acc err ha ht hy hu hd
    exact (validateExtracted_apa_quality _ acc err ha hy hu hd).2 ht

/-- C4 witness: the boundary values at two concrete citations. -/
theorem apa_quality_boundary_witness :
    ((validateSingleCitation citAuthorTitleYear "APA" false "").quality_score = 3/4 ∧
      (validateSingleCitation citAuthorTitleYear "APA" false "").is_valid = true) ∧
    ((validateSingleCitation citAuthorYear "APA" false "").quality_score = 1/2 ∧
      (validateSingleCitation citAuthorYear "APA" false "").is_valid = false) :=
  ⟨apa_quality_boundary.1 citAuthorTitleYear false ""
      (by decide) (by decide) (by decide) (by decide) (by decide),
    apa_quality_boundary.2 citAuthorYear false ""
      (by decide) (by decide) (by decide) (by decide) (by decide)⟩

/-- C4 counterexample: a citation extracting exactly author and year
scores `1/2` under APA, not approximately `0.67`. -/
theorem author_year_scores_half :
    truthy (extractCitationComponents citAuthorYear).author = true ∧
    truthy (extractCitationComponents citAuthorYear).year = true ∧
    (extractCitationComponents citAuthorYear).title = none ∧
    (validateSingleCitation citAuthorYear "APA" false "").quality_score = 1/2 ∧
    (validateSingleCitation citAuthorYear "APA" false "").quality_score ≠ 2/3 := by
  have h := (validateExtracted_apa_quality (extractCitationComponents citAuthorYear)
    false "" (by decide) (by decide) (by decide) (by decide)).2 (by decide)
  refine ⟨by decide, by decide, by decide, h.1, ?_⟩
  rw [show (validateSingleCitation citAuthorYear "APA" false "").quality_score = 1/2 from h.1]
  norm_num

/-- C6: the verification status and confidence are the fixed three-bucket
function of the overlap ratio: at least `0.7` gives strongly supported at
confidence `0.9`; in `[0.4, 0.7)` partially supported at `0.6`; below
`0.4` insufficient evidence at `0.3`.  The boundary ratios `0.7`, `0.4`
and `0.39` land as claimed. -/
theorem claim_verification_buckets :
    (∀ c s : List Char,
      verifyClaimAgainstSources c s = overlapBucket (keywordOverlap c s)) ∧
    (∀ r : ℚ,
      (7/10 ≤ r → overlapBucket r = ⟨"strongly_supported", 9/10⟩) ∧
      (2/5 ≤ r → r < 7/10 → overlapBucket r = ⟨"partially_supported", 3/5⟩) ∧
      (r < 2/5 → overlapBucket r = ⟨"insufficient_evidence", 3/10⟩)) ∧
    overlapBucket (7/10) = ⟨"strongly_supported", 9/10⟩ ∧
    overlapBucket (2/5) = ⟨"partially_supported", 3/5⟩ ∧
    overlapBucket (39/100) = ⟨"insufficient_evidence", 3/10⟩ := by
  refine ⟨fun c s => rfl, ?_, by norm_num [overlapBucket], by norm_num [overlapBucket],
    by norm_num [overlapBucket]⟩
  intro r
  refine ⟨fun h => ?_, fun h4 h7 => ?_, fun h => ?_⟩
  · rw [overlapBucket, if_pos h]
  · rw [overlapBucket, if_neg (not_le.mpr h7), if_pos h4]
  · rw [overlapBucket, if_neg (not_le.mpr (lt_trans h (by norm_num))),
      if_neg (not_le.mpr h)]

/-- C6 witness: the bucket function applied at concrete ratios. -/
theorem claim_verification_buckets_witness :
    overlapBucket 1 = ⟨"strongly_supported", 9/10⟩ ∧
    overlapBucket (1/2) = ⟨"partially_supported", 3/5⟩ ∧
    overlapBucket 0 = ⟨"insufficient_evidence", 3/10⟩ :=
  ⟨(claim_verification_buckets.2.1 1).1 (by norm_num),
    (claim_verification_buckets.2.1 (1/2)).2.1 (by norm_num) (by norm_num),
    (claim_verification_buckets.2.1 0).2.2 (by norm_num)⟩

/-- Any single-claim confidence is `0.3`, `0.6` or `0.9`. -/
theorem confidence_score_cases (c s : List Char) :
    (verifyClaimAgainstSources c s).confidence_score = 3/10 ∨
    (verifyClaimAgainstSources c s).confidence_score = 3/5 ∨
    (verifyClaimAgainstSources c s).confidence_score = 9/10 := by
  unfold verifyClaimAgainstSources overlapBucket
  split_ifs <;> simp

/-- C9: the empty-batch aggregates are `0.0`, not errors: the overall
quality of no citations and the overall reliability of no claims. -/
theorem empty_batch_aggregates :
    calculateOverallQuality [] = 0 ∧ ∀ s : List Char, overallReliability [] s = 0 :=
  ⟨rfl, fun _ => rfl⟩

/-- C10: every produced confidence is one of `0.3`, `0.6`, `0.9`, and for
a non-empty claim list the overall reliability (the mean of confidences)
lies in `[0.3, 0.9]`. -/
theorem reliability_bounds :
    (∀ c s : List Char,
      (verifyClaimAgainstSources c s).confidence_score = 3/10 ∨
      (verifyClaimAgainstSources c s).confidence_score = 3/5 ∨
      (verifyClaimAgainstSources c s).confidence_score = 9/10) ∧
    (∀ (claims : List (List Char)) (s : List Char), claims ≠ [] →
      3/10 ≤ overallReliability claims s ∧ overallReliability claims s ≤ 9/10) := by
  refine ⟨confidence_score_cases, ?_⟩
  intro claims s hne
  have hpos : 0 < claims.length := List.length_pos.mpr hne
  have hnpos : (0 : ℚ) < (claims.length : ℚ) := by exact_mod_cast hpos
  have hlb : ∀ x ∈ claims.map (fun c => (verifyClaimAgainstSources c s).confidence_score),
      3/10 ≤ x := by
    intro x hx
    rcases List.mem_map.mp hx with ⟨c, -, rfl⟩
    rcases confidence_score_cases c s with h | h | h <;> rw [h] <;> norm_num
  have hub : ∀ x ∈ claims.map (fun c => (verifyClaimAgainstSources c s).confidence_score),
      x ≤ 9/10 := by
    intro x hx
    rcases List.mem_map.mp hx with ⟨c, -, rfl⟩
    rcases confidence_score_cases c s with h | h | h <;> rw [h] <;> norm_num
  have hl := List.card_nsmul_le_sum _ _ hlb
  have hu := List.sum_le_card_nsmul _ _ hub
  rw [nsmul_eq_mul, List.length_map] at hl hu
  unfold overallReliability
  rw [if_pos hpos]
  constructor
  · rw [le_div_iff₀ hnpos]
    calc (3/10 : ℚ) * claims.length = (claims.length : ℚ) * (3/10) := by ring
    _ ≤ _ := hl
  · rw [div_le_iff₀ hnpos]
    calc (claims.map (fun c => (verifyClaimAgainstSources c s).confidence_score)).sum
        ≤ (claims.length : ℚ) * (9/10) := hu
    _ = 9/10 * claims.length := by ring

/-- C10 witness: bounds at a concrete non-empty claim list. -/
theorem reliability_bounds_witness :
    3/10 ≤ overallReliability [claimAB] cexSources ∧
    overallReliability [claimAB] cexSources ≤ 9/10 :=
  reliability_bounds.2 [claimAB] cexSources (by simp)

/-- C7 (amended): the relevance function is *partial*: it errors (modelled
as `none`, a `ZeroDivisionError` in the source) exactly when the query
tokenizes to zero terms — there is no `0.5` fallback — and otherwise
returns the weighted term-match ratio capped at `1.0`. -/
theorem relevance_zero_terms_error :
    ∀ (query : List Char) (hit : RawResult),
      (calculateRelevance query hit = none ↔ queryTerms query = []) ∧
      (queryTerms query ≠ [] →
        calculateRelevance query hit =
          some (min
            (((((queryTerms query).filter
                  (fun t => substr t (lowerStr hit.title))).length : ℚ) * (7/10) +
              ((((queryTerms query).filter
                  (fun t => substr t (lowerStr hit.body))).length : ℚ)) * (3/10)) /
              ((queryTerms query).length : ℚ)) 1)) ∧
      (∀ r : ℚ, calculateRelevance query hit = some r → r ≤ 1) := by
  intro query hit
  unfold calculateRelevance
  by_cases h : (queryTerms query).length = 0
  · have h' : queryTerms query = [] := List.length_eq_zero.mp h
    rw [if_pos h]
    refine ⟨⟨fun _ => h', fun _ => rfl⟩, fun hne => absurd h' hne, ?_⟩
    intro r hr
    exact absurd hr (by simp)
  · have h' : queryTerms query ≠ [] := fun hc => h (by rw [hc]; rfl)
    rw [if_neg h]
    refine ⟨⟨fun hc => absurd hc (by simp), fun hc => absurd hc h'⟩,
      fun _ => rfl, ?_⟩
    intro r hr
    rw [Option.some_inj] at hr
    rw [← hr]
    exact min_le_right _ _

/-- C7 counterexample: on an empty query the code divides by zero (the
error branch is reachable); it does not return the claimed `0.5`. -/
theorem empty_query_relevance_error :
    calculateRelevance [] hit0 = none ∧ calculateRelevance [] hit0 ≠ some (1/2) := by
  have h : calculateRelevance [] hit0 = none := rfl
  exact ⟨h, by rw [h]; simp⟩

/-- C7 witness: the non-degenerate branch at a concrete one-term query. -/
theorem relevance_zero_terms_error_witness :
    calculateRelevance queryAlpha hit0 =
      some (min
        (((((queryTerms queryAlpha).filter
              (fun t => substr t (lowerStr hit0.title))).length : ℚ) * (7/10) +
          ((((queryTerms queryAlpha).filter
              (fun t => substr t (lowerStr hit0.body))).length : ℚ)) * (3/10)) /
          ((queryTerms queryAlpha).length : ℚ)) 1) :=
  (relevance_zero_terms_error queryAlpha hit0).2.1 (by decide)

/-- C8: the ranking step is a permutation of its input, sorted in
descending order of the combined score `(relevance + quality)/2`, and
stable: for every score value, the sublist of records with that score is
exactly the input's sublist with that score, in the same order. -/
theorem rank_results_stable_descending :
    ∀ rs : List SearchResultRecord,
      (rankResults rs).Perm rs ∧
      List.Chain' (fun a b => combinedScore b ≤ combinedScore a) (rankResults rs) ∧
      (∀ k : ℚ,
        (rankResults rs).filter (fun r => decide (combinedScore r = k)) =
          rs.filter (fun r => decide (combinedScore r = k))) :=
  fun rs =>
    ⟨stableSortDesc_perm _ rs, (pairwise_stableSortDesc _ rs).chain',
      fun k => filter_stableSortDesc _ k rs⟩

end ResearchAssistant
